import Mathlib

/-!
Shallow embedding of the lutris excerpt:
  src/lutris/gui/views/media_loader.py
  src/lutris/gui/widgets/common.py

Python strings appearing as character sequences are modelled as `List Char`;
opaque path strings are modelled as `String`.  Python exceptions raised by a
download are modelled as the `Except.error` branch of an `Except`.  GTK/OS
calls (filesystem queries, signal emission, log messages) are modelled as
abstract function parameters or as explicit outputs.
-/

namespace Lutris

namespace MediaLoader

/-- `MediaLoader.num_workers` from media_loader.py line 14. -/
def num_workers : Nat := 8

/-- Observable outcome of a `download_icons` run: the list of
`icon-loaded` signal emissions `(slug, path)` in emission order, and the
list of logged failures `(slug, exception message)` in log order. -/
structure Outcome where
  emits : List (String × String)
  logs : List (String × String)
deriving DecidableEq, Repr

/-- `MediaLoader.download_icons` (media_loader.py lines 19-37).
`download` models `service_media.download`; a raised exception is the
`Except.error` branch.  The argument list is the sequence of `(slug, url)`
pairs in the order `concurrent.futures.as_completed` yields their futures
(a permutation of `media_urls.items()`).  For each completed future the
loop takes `future.result()`; on success it emits `icon-loaded` with the
slug and the returned path, on an exception it logs the failure. -/
def download_icons (download : String → String → Except String String) :
    List (String × String) → Outcome
  | [] => ⟨[], []⟩
  | (slug, url) :: rest =>
    let r := download_icons download rest
    match download slug url with
    | Except.ok path => ⟨(slug, path) :: r.emits, r.logs⟩
    | Except.error ex => ⟨r.emits, (slug, ex) :: r.logs⟩

/-- The `(slug, path)` pairs of the entries whose download succeeds,
in entry order. -/
def successList (download : String → String → Except String String)
    (urls : List (String × String)) : List (String × String) :=
  urls.filterMap fun su =>
    match download su.1 su.2 with
    | Except.ok path => some (su.1, path)
    | Except.error _ => none

/-- The `(slug, exception message)` pairs of the entries whose download
fails, in entry order. -/
def failureList (download : String → String → Except String String)
    (urls : List (String × String)) : List (String × String) :=
  urls.filterMap fun su =>
    match download su.1 su.2 with
    | Except.ok _ => none
    | Except.error ex => some (su.1, ex)

/-- Executor state for the `ThreadPoolExecutor(max_workers=...)` used by
`download_icons` (media_loader.py line 25): task identifiers waiting for
a worker, tasks currently executing on a worker, and finished tasks. -/
structure PoolState where
  pending : List Nat
  running : List Nat
  done : List Nat
deriving DecidableEq, Repr

/-- One scheduling step of the executor, bounded by `w` workers: a
pending task may start only when fewer than `w` tasks are running, and
any running task may finish at any time. -/
inductive PoolStep (w : Nat) : PoolState → PoolState → Prop
  | submit (t : Nat) (pending running done : List Nat)
      (h : running.length < w) :
      PoolStep w ⟨t :: pending, running, done⟩ ⟨pending, t :: running, done⟩
  | complete (t : Nat) (pending r1 r2 done : List Nat) :
      PoolStep w ⟨pending, r1 ++ t :: r2, done⟩ ⟨pending, r1 ++ r2, t :: done⟩

/-- Initial executor state: every task submitted, none running yet. -/
def initPool (tasks : List Nat) : PoolState := ⟨tasks, [], []⟩

/-- Executor states reachable from the initial state by scheduling
steps. -/
def poolReachable (w : Nat) (tasks : List Nat) (s : PoolState) : Prop :=
  Relation.ReflTransGen (PoolStep w) (initPool tasks) s

/-- Concrete download function used by witnesses: slug "a" succeeds with
path "pa", every other slug raises, with message "boom". -/
def dlExample : String → String → Except String String :=
  fun slug _ => if slug == "a" then Except.ok "pa" else Except.error "boom"

end MediaLoader

namespace Widgets

/-- The GTK widgets this excerpt adds to a `FileChooserEntry` container:
the first row (the box with the text entry and the Browse button) and
the three warning labels; `other` stands for any further widget. -/
inductive Widget
  | entryRow : Widget
  | ntfsWarning : Widget
  | nonEmptyWarning : Widget
  | nonWritableWarning : Widget
  | other : Nat → Widget
deriving DecidableEq, Repr

/-- A `Gtk.Box` container: children packed with `pack_start` kept in
pack order, and children packed with `pack_end` kept in display order.
Per the GTK contract a later `pack_end` places its child before (away
from the end of) the previously end-packed children, so `pack_end`
prepends to `endChildren`. -/
structure BoxState where
  startChildren : List Widget
  endChildren : List Widget
deriving DecidableEq, Repr

/-- `Gtk.Box.pack_start` (the expand/fill/padding arguments do not
affect the child list). -/
def pack_start (b : BoxState) (c : Widget) : BoxState :=
  { b with startChildren := b.startChildren ++ [c] }

/-- `Gtk.Box.pack_end` (the expand/fill/padding arguments do not affect
the child list). -/
def pack_end (b : BoxState) (c : Widget) : BoxState :=
  { b with endChildren := c :: b.endChildren }

/-- `Gtk.Container.get_children`: the children in display order. -/
def get_children (b : BoxState) : List Widget :=
  b.startChildren ++ b.endChildren

/-- `FileChooserEntry.clear_warnings` (common.py lines 242-246): destroy
every child whose index in `get_children` is greater than 0.  The
surviving child of index 0 is kept as a start child. -/
def clear_warnings (b : BoxState) : BoxState :=
  { startChildren := ((get_children b).enum.filter fun ic => ! decide (ic.1 > 0)).map Prod.snd,
    endChildren := [] }

/-- Abstract filesystem and OS facts consulted by `FileChooserEntry`:
`os.path.expanduser`, `LINUX_SYSTEM.get_fs_type_for_path`,
`os.path.exists`, `os.listdir`, `os.path.isdir`,
`system.get_existing_parent` and `os.access(parent, os.W_OK)`. -/
structure FS where
  expanduser : String → String
  get_fs_type_for_path : String → Option String
  path_exists : String → Bool
  listdir : String → List String
  isdir : String → Bool
  get_existing_parent : String → Option String
  access_writable : String → Bool

/-- The widget state of a `FileChooserEntry` that the claims touch: its
container box, the two warning flags derived in `__init__` (common.py
lines 102-103) from the `warnings` flag argument, the entry text, and
the completion list store. -/
structure FileChooserEntryState where
  container : BoxState
  warn_if_non_empty : Bool
  warn_if_ntfs : Bool
  text : String
  path_completion : List String
deriving DecidableEq, Repr

/-- `FileChooserEntry.get_text` (common.py lines 124-126). -/
def get_text (s : FileChooserEntryState) : String := s.text

/-- `FileChooserEntry.get_filename` (common.py lines 128-131): logs a
deprecation warning, then returns `get_text`.  The result pairs the
returned string with the log messages produced. -/
def get_filename (s : FileChooserEntryState) : String × List String :=
  (get_text s, ["Just use get_text"])

/-- `FileChooserEntry.max_completion_items` (common.py line 50). -/
def max_completion_items : Nat := 15

/-- Model of Python `str.startswith`: a structural prefix test on the
character sequences. -/
def py_startswith (s pre : String) : Bool := pre.data.isPrefixOf s.data

/-- Model of Python `str.endswith`: a structural suffix test on the
character sequences. -/
def py_endswith (s suf : String) : Bool := suf.data.isSuffixOf s.data

/-- Model of `os.path.split` (posixpath): split at the final slash; the
head keeps no trailing slashes unless it consists only of slashes. -/
def os_path_split (p : String) : String × String :=
  let cs := p.data
  let tail := (cs.reverse.takeWhile fun c => c != '/').reverse
  let head := cs.take (cs.length - tail.length)
  let head :=
    if head ≠ [] ∧ ¬ head.all (fun c => c == '/') then
      (head.reverse.dropWhile fun c => c == '/').reverse
    else head
  (String.mk head, String.mk tail)

/-- Model of `os.path.join` (posixpath) for one extra component. -/
def os_path_join (a b : String) : String :=
  if py_startswith b "/" then b
  else if a = "" ∨ py_endswith a "/" then a ++ b
  else a ++ "/" ++ b

/-- Lexicographic comparison of character sequences, the order Python
uses to compare strings (helper for `py_sorted`). -/
def chars_le : List Char → List Char → Bool
  | [], _ => true
  | _ :: _, [] => false
  | a :: as, b :: bs => if a < b then true else if b < a then false else chars_le as bs

/-- Lexicographic comparison of strings by code point, as in Python. -/
def str_le (a b : String) : Bool := chars_le a.data b.data

/-- Insert a string into an already sorted list (helper for
`py_sorted`). -/
def insert_le (x : String) : List String → List String
  | [] => [x]
  | y :: ys => if str_le x y then x :: y :: ys else y :: insert_le x ys

/-- Model of the builtin `sorted` on a list of strings: a sort by
lexicographic order, here an insertion sort. -/
def py_sorted : List String → List String
  | [] => []
  | x :: xs => insert_le x (py_sorted xs)

/-- The skip condition `filefilter is not None and not
filename.startswith(filefilter)` of the completion loop (common.py line
235). -/
def filefilter_skip (filefilter : Option String) (filename : String) : Bool :=
  match filefilter with
  | some ff => ! py_startswith filename ff
  | none => false

/-- The `for filename in sorted(os.listdir(current_path))` loop of
`FileChooserEntry.update_completion` (common.py lines 231-240), carrying
the running `index` counter: hidden names and names missing the prefix
filter are skipped, every other name is appended as a full path, and
after an append that pushes `index` past `max_completion_items` the loop
breaks. -/
def completion_loop (current_path : String) (filefilter : Option String) :
    List String → Nat → List String
  | [], _ => []
  | filename :: rest, index =>
    if py_startswith filename "." then
      completion_loop current_path filefilter rest index
    else if filefilter_skip filefilter filename then
      completion_loop current_path filefilter rest index
    else
      let entry := os_path_join current_path filename
      if index + 1 > max_completion_items then [entry]
      else entry :: completion_loop current_path filefilter rest (index + 1)

/-- `FileChooserEntry.update_completion` (common.py lines 221-240):
clear the completion store; when the typed path does not exist, split it
into a directory and a prefix filter; when the directory exists, refill
the store from its sorted listing. -/
def update_completion (fs : FS) (s : FileChooserEntryState) (current_path : String) :
    FileChooserEntryState :=
  let pf :=
    if ! fs.path_exists current_path then
      let pr := os_path_split current_path
      (pr.1, some pr.2)
    else (current_path, none)
  if fs.isdir pf.1 then
    { s with path_completion := completion_loop pf.1 pf.2 (py_sorted (fs.listdir pf.1)) 0 }
  else { s with path_completion := [] }

/-- Claim-side description of the completion entries: the full paths of
the sorted directory listing, hidden names excluded and, when the typed
path does not exist, names missing the prefix filter excluded — with no
length cap. -/
def expected_completions (fs : FS) (current_path : String) : List String :=
  let pf :=
    if ! fs.path_exists current_path then
      let pr := os_path_split current_path
      (pr.1, some pr.2)
    else (current_path, none)
  if fs.isdir pf.1 then
    ((py_sorted (fs.listdir pf.1)).filter fun filename =>
        ! py_startswith filename "." && ! filefilter_skip pf.2 filename).map (os_path_join pf.1)
  else []

/-- `FileChooserEntry.on_entry_changed` (common.py lines 175-209): clear
the warnings, stop if the entry is empty, otherwise expand the path,
update the completion store, and pack one warning label per risky
condition (NTFS drive, non-empty target, non-writable destination). -/
def on_entry_changed (fs : FS) (s : FileChooserEntryState) : FileChooserEntryState :=
  let s := { s with container := clear_warnings s.container }
  let path := get_text s
  if path = "" then s
  else
    let path := fs.expanduser path
    let s := update_completion fs s path
    let s :=
      if s.warn_if_ntfs && (fs.get_fs_type_for_path path == some "ntfs") then
        { s with container := pack_end s.container Widget.ntfsWarning }
      else s
    let s :=
      if s.warn_if_non_empty && fs.path_exists path && ! (fs.listdir path).isEmpty then
        { s with container := pack_end s.container Widget.nonEmptyWarning }
      else s
    match fs.get_existing_parent path with
    | some parent =>
      if ! fs.access_writable parent then
        { s with container := pack_end s.container Widget.nonWritableWarning }
      else s
    | none => s

/-- Claim-side list of the warning labels that should be shown for the
expanded path, in the display order `pack_end` produces. -/
def expected_warnings (fs : FS) (s : FileChooserEntryState) (path : String) : List Widget :=
  (if (match fs.get_existing_parent path with
       | some parent => ! fs.access_writable parent
       | none => false) then [Widget.nonWritableWarning] else []) ++
  (if s.warn_if_non_empty && fs.path_exists path && ! (fs.listdir path).isEmpty then
      [Widget.nonEmptyWarning] else []) ++
  (if s.warn_if_ntfs && (fs.get_fs_type_for_path path == some "ntfs") then
      [Widget.ntfsWarning] else [])

/-- `Gtk.EntryBuffer.insert_text(position, chars, n_chars)`: insert the
first `n_chars` characters of `chars` at `position` (`n_chars` is
clamped to the characters available, per the GTK contract that it is the
length of `chars`). -/
def insert_text (buffer : List Char) (position : Nat) (chars : List Char)
    (n_chars : Nat) : List Char :=
  buffer.take position ++ chars.take n_chars ++ buffer.drop position

namespace SlugEntry

/-- The character filter of `SlugEntry.do_insert_text` (common.py line
23): keep only alphanumeric characters and dashes, then lowercase the
joined string.  The host Unicode functions are abstract parameters:
`isalnum` models Python `str.isalnum` on a single character, and
`lower` models the per-character action of Python `str.lower`, which
may expand one character to several (so the lowered string is the
concatenation of the per-character images). -/
def slug_filter (isalnum : Char → Bool) (lower : Char → List Char)
    (s : List Char) : List Char :=
  (s.filter fun c => isalnum c || c == '-').flatMap lower

/-- `SlugEntry.do_insert_text` (common.py lines 21-26): filter the
typed text, reassign `length` to the length of the filtered-and-lowered
text, insert it at `position` and return the advanced position.  The
result is the new buffer and the returned position. -/
def do_insert_text (isalnum : Char → Bool) (lower : Char → List Char)
    (buffer : List Char) (new_text : List Char)
    (length position : Nat) : List Char × Nat :=
  let new_text := slug_filter isalnum lower new_text
  let length := new_text.length
  (insert_text buffer position new_text length, position + length)

/-- Partial but exact model of CPython `str.isalnum` on one character,
covering the code points this development uses: the ASCII alphanumerics
and LATIN CAPITAL LETTER I WITH DOT ABOVE (U+0130) are alphanumeric;
COMBINING DOT ABOVE (U+0307), a combining mark, is not. -/
def py_isalnum (c : Char) : Bool :=
  c.isAlphanum || c == Char.ofNat 0x130

/-- Partial but exact model of the per-character action of CPython
`str.lower`, covering the code points this development uses: U+0130
lowers to "i" followed by COMBINING DOT ABOVE (U+0307), per the Unicode
SpecialCasing table; every other modelled character lowers to its ASCII
lowercase image. -/
def py_lower (c : Char) : List Char :=
  if c == Char.ofNat 0x130 then [Char.ofNat 0x69, Char.ofNat 0x307]
  else [c.toLower]

end SlugEntry

namespace NumberEntry

/-- The character filter of `NumberEntry.do_insert_text` (common.py line
33): keep only numeric characters.  Python `str.isnumeric` is modelled
by `Char.isDigit`, with which it agrees on ASCII. -/
def numeric_filter (s : List Char) : List Char :=
  s.filter Char.isDigit

/-- `NumberEntry.do_insert_text` (common.py lines 31-37): filter the
typed text; when anything remains, insert the filtered text but pass and
return the original `length` argument, which — unlike in `SlugEntry` —
is not reassigned to the filtered length; otherwise leave the buffer
untouched and return the original position. -/
def do_insert_text (buffer : List Char) (new_text : List Char)
    (length position : Nat) : List Char × Nat :=
  let new_text := numeric_filter new_text
  if new_text ≠ [] then
    (insert_text buffer position new_text length, position + length)
  else (buffer, position)

end NumberEntry

namespace EditableGrid

/-- The state of an `EditableGrid` the claims touch: the rows of the
two-column `Gtk.ListStore(str, str)` in store order, and the tree view
cursor (also the selection) as a row index. -/
structure Grid where
  liststore : List (String × String)
  cursor : Option Nat
deriving DecidableEq, Repr

/-- `EditableGrid.on_add` (common.py lines 330-335): append a row of two
empty strings, move the cursor to it, and emit `changed`.  The result is
the new state and the list of emitted signals. -/
def on_add (g : Grid) : Grid × List String :=
  let liststore := g.liststore ++ [("", "")]
  let row_position := liststore.length - 1
  (⟨liststore, some row_position⟩, ["changed"])

/-- `EditableGrid.on_delete` (common.py lines 337-341): remove the row
selected in the tree view and emit `changed`; `none` models the
`TypeError` the Python code raises when nothing is selected. -/
def on_delete (g : Grid) : Option (Grid × List String) :=
  match g.cursor with
  | some i => some (⟨g.liststore.eraseIdx i, g.cursor⟩, ["changed"])
  | none => none

/-- The assignment `row[field] = value` on a two-column list-store
row. -/
def set_field (row : String × String) (field : Nat) (value : String) :
    String × String :=
  if field = 0 then (value, row.2) else (row.1, value)

/-- `EditableGrid.on_text_edited` (common.py lines 343-345):
`liststore[path][field] = text.strip()` and emit `changed`; `none`
models the exception Python raises for an invalid row path or column
index.  Python `str.strip` is modelled by `String.trim`. -/
def on_text_edited (g : Grid) (path : Nat) (text : String) (field : Nat) :
    Option (Grid × List String) :=
  match g.liststore.get? path with
  | some row =>
    if field < 2 then
      some (⟨g.liststore.set path (set_field row field text.trim), g.cursor⟩, ["changed"])
    else none
  | none => none

/-- `EditableGrid.get_data` (common.py lines 347-351): copy the rows of
the list store, in order, into a fresh list. -/
def get_data (g : Grid) : List (String × String) :=
  g.liststore.foldl (fun model_data row => model_data ++ [row]) []

/-- A concrete grid with two rows and the first row selected, used by
the witness. -/
def gridExample : Grid :=
  { liststore := [("k1", "v1"), ("k2", "v2")], cursor := some 0 }

end EditableGrid

/-- Concrete filesystem with one directory `/d` holding 17 visible
files, used to exercise the completion cap. -/
def fsBig : FS :=
  { expanduser := id
    get_fs_type_for_path := fun _ => none
    path_exists := fun p => p == "/d"
    listdir := fun p =>
      if p == "/d" then
        ["a", "b", "c", "d", "e", "f", "g", "h", "i", "j", "k", "l", "m",
         "n", "o", "p", "q"]
      else []
    isdir := fun p => p == "/d"
    get_existing_parent := fun _ => none
    access_writable := fun _ => true }

/-- Concrete filesystem where every path sits on an NTFS drive, is a
non-empty directory, and has a non-writable existing parent; used by the
warning witness. -/
def fsWarn : FS :=
  { expanduser := id
    get_fs_type_for_path := fun _ => some "ntfs"
    path_exists := fun _ => true
    listdir := fun _ => ["somefile"]
    isdir := fun _ => true
    get_existing_parent := fun _ => some "/e"
    access_writable := fun _ => false }

/-- A concrete widget state with text typed in, both warning flags set,
and one stale warning label to be cleared. -/
def stWarn : FileChooserEntryState :=
  { container := ⟨[Widget.entryRow], [Widget.ntfsWarning]⟩
    warn_if_non_empty := true
    warn_if_ntfs := true
    text := "/e/dir"
    path_completion := [] }

/-- A concrete widget state pointing at the 17-file directory of
`fsBig`. -/
def stBig : FileChooserEntryState :=
  { container := ⟨[Widget.entryRow], []⟩
    warn_if_non_empty := false
    warn_if_ntfs := false
    text := "/d"
    path_completion := [] }

end Widgets

namespace MediaLoader

theorem emits_eq_successList (download : String → String → Except String String)
    (l : List (String × String)) :
    (download_icons download l).emits = successList download l := by
  induction l with
  | nil => rfl
  | cons hd tl ih =>
    obtain ⟨slug, url⟩ := hd
    simp only [download_icons, successList, List.filterMap_cons]
    cases h : download slug url with
    | ok path => simp [successList] at ih ⊢; rw [ih]
    | error ex => simp [successList] at ih ⊢; rw [ih]

theorem logs_eq_failureList (download : String → String → Except String String)
    (l : List (String × String)) :
    (download_icons download l).logs = failureList download l := by
  induction l with
  | nil => rfl
  | cons hd tl ih =>
    obtain ⟨slug, url⟩ := hd
    simp only [download_icons, failureList, List.filterMap_cons]
    cases h : download slug url with
    | ok path => simp [failureList] at ih ⊢; rw [ih]
    | error ex => simp [failureList] at ih ⊢; rw [ih]

theorem successList_length_add_failureList_length
    (download : String → String → Except String String)
    (l : List (String × String)) :
    (successList download l).length + (failureList download l).length = l.length := by
  induction l with
  | nil => rfl
  | cons hd tl ih =>
    obtain ⟨slug, url⟩ := hd
    simp only [successList, failureList, List.filterMap_cons] at ih ⊢
    cases h : download slug url with
    | ok path => simp only [List.length_cons]; omega
    | error ex => simp only [List.length_cons]; omega

theorem successList_cons_ok (download : String → String → Except String String)
    (s u p : String) (tl : List (String × String))
    (h : download s u = Except.ok p) :
    successList download ((s, u) :: tl) = (s, p) :: successList download tl := by
  simp only [successList, List.filterMap_cons, h]

theorem successList_cons_err (download : String → String → Except String String)
    (s u e : String) (tl : List (String × String))
    (h : download s u = Except.error e) :
    successList download ((s, u) :: tl) = successList download tl := by
  simp only [successList, List.filterMap_cons, h]

theorem failureList_cons_ok (download : String → String → Except String String)
    (s u p : String) (tl : List (String × String))
    (h : download s u = Except.ok p) :
    failureList download ((s, u) :: tl) = failureList download tl := by
  simp only [failureList, List.filterMap_cons, h]

theorem failureList_cons_err (download : String → String → Except String String)
    (s u e : String) (tl : List (String × String))
    (h : download s u = Except.error e) :
    failureList download ((s, u) :: tl) = (s, e) :: failureList download tl := by
  simp only [failureList, List.filterMap_cons, h]

theorem not_mem_successList (download : String → String → Except String String)
    (l : List (String × String)) (slug : String)
    (h : slug ∉ l.map Prod.fst) (p : String) :
    (slug, p) ∉ successList download l := by
  induction l with
  | nil => simp [successList]
  | cons hd tl ih =>
    obtain ⟨s0, u0⟩ := hd
    simp only [List.map_cons, List.mem_cons, not_or] at h
    cases hd : download s0 u0 with
    | ok path =>
      rw [successList_cons_ok download s0 u0 path tl hd]
      simp only [List.mem_cons, not_or, Prod.mk.injEq, not_and]
      exact ⟨fun h1 => absurd h1 h.1, ih h.2⟩
    | error ex =>
      rw [successList_cons_err download s0 u0 ex tl hd]
      exact ih h.2

theorem not_mem_failureList (download : String → String → Except String String)
    (l : List (String × String)) (slug : String)
    (h : slug ∉ l.map Prod.fst) (e : String) :
    (slug, e) ∉ failureList download l := by
  induction l with
  | nil => simp [failureList]
  | cons hd tl ih =>
    obtain ⟨s0, u0⟩ := hd
    simp only [List.map_cons, List.mem_cons, not_or] at h
    cases hd : download s0 u0 with
    | ok path =>
      rw [failureList_cons_ok download s0 u0 path tl hd]
      exact ih h.2
    | error ex =>
      rw [failureList_cons_err download s0 u0 ex tl hd]
      simp only [List.mem_cons, not_or, Prod.mk.injEq, not_and]
      exact ⟨fun h1 => absurd h1 h.1, ih h.2⟩

theorem count_successList (download : String → String → Except String String)
    (l : List (String × String)) (slug url path : String)
    (hnd : (l.map Prod.fst).Nodup) (hmem : (slug, url) ∈ l)
    (hok : download slug url = Except.ok path) :
    (successList download l).count (slug, path) = 1 := by
  induction l with
  | nil => simp at hmem
  | cons hd tl ih =>
    obtain ⟨s0, u0⟩ := hd
    simp only [List.map_cons, List.nodup_cons] at hnd
    rcases List.mem_cons.mp hmem with heq | htl
    · cases heq
      rw [successList_cons_ok download slug url path tl hok, List.count_cons_self]
      have h0 : (slug, path) ∉ successList download tl :=
        not_mem_successList download tl slug hnd.1 path
      rw [List.count_eq_zero.mpr h0]
    · have hs0 : s0 ≠ slug := by
        intro hcontra
        subst hcontra
        exact hnd.1 (List.mem_map_of_mem Prod.fst htl)
      cases hd0 : download s0 u0 with
      | ok p0 =>
        rw [successList_cons_ok download s0 u0 p0 tl hd0]
        rw [List.count_cons_of_ne (by
          intro hab
          simp only [Prod.mk.injEq] at hab
          exact hs0 hab.1.symm)]
        exact ih hnd.2 htl
      | error e0 =>
        rw [successList_cons_err download s0 u0 e0 tl hd0]
        exact ih hnd.2 htl

theorem count_failureList (download : String → String → Except String String)
    (l : List (String × String)) (slug url ex : String)
    (hnd : (l.map Prod.fst).Nodup) (hmem : (slug, url) ∈ l)
    (herr : download slug url = Except.error ex) :
    (failureList download l).count (slug, ex) = 1 := by
  induction l with
  | nil => simp at hmem
  | cons hd tl ih =>
    obtain ⟨s0, u0⟩ := hd
    simp only [List.map_cons, List.nodup_cons] at hnd
    rcases List.mem_cons.mp hmem with heq | htl
    · cases heq
      rw [failureList_cons_err download slug url ex tl herr, List.count_cons_self]
      have h0 : (slug, ex) ∉ failureList download tl :=
        not_mem_failureList download tl slug hnd.1 ex
      rw [List.count_eq_zero.mpr h0]
    · have hs0 : s0 ≠ slug := by
        intro hcontra
        subst hcontra
        exact hnd.1 (List.mem_map_of_mem Prod.fst htl)
      cases hd0 : download s0 u0 with
      | ok p0 =>
        rw [failureList_cons_ok download s0 u0 p0 tl hd0]
        exact ih hnd.2 htl
      | error e0 =>
        rw [failureList_cons_err download s0 u0 e0 tl hd0]
        rw [List.count_cons_of_ne (by
          intro hab
          simp only [Prod.mk.injEq] at hab
          exact hs0 hab.1.symm)]
        exact ih hnd.2 htl

theorem mem_successList_elim (download : String → String → Except String String)
    (l : List (String × String)) (slug p : String)
    (h : (slug, p) ∈ successList download l) :
    ∃ u, (slug, u) ∈ l ∧ download slug u = Except.ok p := by
  obtain ⟨su, hmem, hf⟩ := List.mem_filterMap.mp h
  cases hd : download su.1 su.2 with
  | ok p0 =>
    rw [hd] at hf
    simp only [Option.some.injEq, Prod.mk.injEq] at hf
    obtain ⟨hs, hp⟩ := hf
    subst hs
    subst hp
    exact ⟨su.2, hmem, hd⟩
  | error e0 =>
    rw [hd] at hf
    exact absurd hf (by simp)

theorem mem_failureList_elim (download : String → String → Except String String)
    (l : List (String × String)) (slug e : String)
    (h : (slug, e) ∈ failureList download l) :
    ∃ u, (slug, u) ∈ l ∧ download slug u = Except.error e := by
  obtain ⟨su, hmem, hf⟩ := List.mem_filterMap.mp h
  cases hd : download su.1 su.2 with
  | ok p0 =>
    rw [hd] at hf
    exact absurd hf (by simp)
  | error e0 =>
    rw [hd] at hf
    simp only [Option.some.injEq, Prod.mk.injEq] at hf
    obtain ⟨hs, he⟩ := hf
    subst hs
    subst he
    exact ⟨su.2, hmem, hd⟩

theorem nodup_keys_unique (l : List (String × String))
    (hnd : (l.map Prod.fst).Nodup) (s u1 u2 : String)
    (h1 : (s, u1) ∈ l) (h2 : (s, u2) ∈ l) : u1 = u2 := by
  induction l with
  | nil => simp at h1
  | cons hd tl ih =>
    obtain ⟨s0, v0⟩ := hd
    simp only [List.map_cons, List.nodup_cons] at hnd
    rcases List.mem_cons.mp h1 with he1 | ht1 <;> rcases List.mem_cons.mp h2 with he2 | ht2
    · cases he1; cases he2; rfl
    · cases he1; exact absurd (List.mem_map_of_mem Prod.fst ht2) hnd.1
    · cases he2; exact absurd (List.mem_map_of_mem Prod.fst ht1) hnd.1
    · exact ih hnd.2 ht1 ht2

theorem perm_count_pair {l1 l2 : List (String × String)} (h : l1.Perm l2)
    (a : String × String) : l1.count a = l2.count a :=
  h.countP_eq _

theorem poolStep_running_le {w : Nat} {s s' : PoolState}
    (h : PoolStep w s s') (hb : s.running.length ≤ w) :
    s'.running.length ≤ w := by
  cases h with
  | submit t pending running done hlt => simpa using hlt
  | complete t pending r1 r2 done =>
    simp only [List.length_append, List.length_cons] at hb ⊢
    omega

theorem poolReachable_running_le (w : Nat) (tasks : List Nat) (s : PoolState)
    (h : poolReachable w tasks s) : s.running.length ≤ w := by
  have h2 : Relation.ReflTransGen (PoolStep w) (initPool tasks) s := h
  clear h
  induction h2 with
  | refl => exact Nat.zero_le w
  | tail _ hstep ih => exact poolStep_running_le hstep ih

end MediaLoader

namespace Widgets

theorem enumFrom_filter_gt_zero {α : Type} (l : List α) (n : Nat) (hn : 1 ≤ n) :
    (List.enumFrom n l).filter (fun ic => ! decide (ic.1 > 0)) = [] := by
  induction l generalizing n with
  | nil => rfl
  | cons x xs ih =>
    simp only [List.enumFrom, List.filter_cons]
    have hx : (! decide ((n, x).1 > 0)) = false := by
      have hpos : n > 0 := hn
      simp [hpos]
    rw [hx]
    simp only [Bool.false_eq_true, if_false]
    exact ih (n + 1) (by omega)

@[simp]
theorem clear_warnings_endChildren (b : BoxState) :
    (clear_warnings b).endChildren = [] := rfl

@[simp]
theorem clear_warnings_startChildren (b : BoxState) :
    (clear_warnings b).startChildren = (get_children b).take 1 := by
  show ((get_children b).enum.filter fun ic => ! decide (ic.1 > 0)).map Prod.snd =
    (get_children b).take 1
  generalize get_children b = l
  cases l with
  | nil => rfl
  | cons x xs =>
    show ((List.enumFrom 0 (x :: xs)).filter fun ic => ! decide (ic.1 > 0)).map Prod.snd =
      (x :: xs).take 1
    simp only [List.enumFrom, List.filter_cons]
    rw [show (! decide ((0, x).1 > 0)) = true by simp]
    rw [enumFrom_filter_gt_zero xs 1 (by omega)]
    rfl

theorem clear_warnings_children (b : BoxState) :
    get_children (clear_warnings b) = (get_children b).take 1 := by
  show (clear_warnings b).startChildren ++ (clear_warnings b).endChildren =
    (get_children b).take 1
  rw [clear_warnings_startChildren, clear_warnings_endChildren, List.append_nil]

@[simp]
theorem update_completion_container (fs : FS) (s : FileChooserEntryState) (p : String) :
    (update_completion fs s p).container = s.container := by
  simp only [update_completion]
  split <;> split <;> rfl

@[simp]
theorem update_completion_warn_if_ntfs (fs : FS) (s : FileChooserEntryState) (p : String) :
    (update_completion fs s p).warn_if_ntfs = s.warn_if_ntfs := by
  simp only [update_completion]
  split <;> split <;> rfl

@[simp]
theorem update_completion_warn_if_non_empty (fs : FS) (s : FileChooserEntryState) (p : String) :
    (update_completion fs s p).warn_if_non_empty = s.warn_if_non_empty := by
  simp only [update_completion]
  split <;> split <;> rfl

theorem completion_loop_eq_take (dir : String) (ff : Option String)
    (files : List String) (index : Nat) (h : index ≤ max_completion_items) :
    completion_loop dir ff files index =
      ((files.filter fun filename =>
          ! py_startswith filename "." && ! filefilter_skip ff filename).map
        (os_path_join dir)).take (max_completion_items + 1 - index) := by
  induction files generalizing index with
  | nil => simp [completion_loop]
  | cons x xs ih =>
    simp only [completion_loop, List.filter_cons]
    by_cases h1 : py_startswith x "." = true
    · simp only [h1, if_pos rfl, Bool.not_true, Bool.false_and, Bool.false_eq_true, if_false]
      exact ih index h
    · rw [Bool.not_eq_true] at h1
      by_cases h2 : filefilter_skip ff x = true
      · simp only [h1, Bool.false_eq_true, if_false, h2, if_pos rfl, Bool.not_true,
          Bool.and_false, Bool.false_eq_true, if_false]
        exact ih index h
      · rw [Bool.not_eq_true] at h2
        by_cases h3 : index + 1 > max_completion_items
        · have hidx : max_completion_items + 1 - index = 1 := by omega
          simp [h1, h2, h3, hidx]
        · have h4 : index + 1 ≤ max_completion_items := by omega
          have hsub : max_completion_items + 1 - index =
              (max_completion_items + 1 - (index + 1)) + 1 := by omega
          rw [hsub]
          simp [h1, h2, h3, ih (index + 1) h4]

theorem char_ofNat_add32_toNat (n : Nat) (h1 : 65 ≤ n) (h2 : n ≤ 90) :
    (Char.ofNat (n + 32)).toNat = n + 32 := by
  have hv : (n + 32).isValidChar := by
    left
    omega
  rw [Char.ofNat, dif_pos hv]
  simp [Char.ofNatAux, Char.toNat, UInt32.toNat, UInt32.ofNatCore, BitVec.toNat_ofNatLt]

theorem toLower_toNat_of_upper (c : Char) (h1 : 65 ≤ c.toNat) (h2 : c.toNat ≤ 90) :
    (Char.toLower c).toNat = c.toNat + 32 := by
  show (if c.toNat ≥ 65 ∧ c.toNat ≤ 90 then Char.ofNat (c.toNat + 32) else c).toNat =
    c.toNat + 32
  rw [if_pos ⟨h1, h2⟩]
  exact char_ofNat_add32_toNat c.toNat h1 h2

theorem toLower_eq_self_of_not_upper (c : Char)
    (h : ¬(c.toNat ≥ 65 ∧ c.toNat ≤ 90)) : Char.toLower c = c := by
  show (if c.toNat ≥ 65 ∧ c.toNat ≤ 90 then Char.ofNat (c.toNat + 32) else c) = c
  rw [if_neg h]

theorem slug_char_closed (c : Char) (h : (c.isAlphanum || c == '-') = true) :
    ((Char.toLower c).isAlphanum || Char.toLower c == '-') = true ∧
    Char.toLower (Char.toLower c) = Char.toLower c := by
  by_cases hu : c.toNat ≥ 65 ∧ c.toNat ≤ 90
  · have ht : (Char.toLower c).toNat = c.toNat + 32 := toLower_toNat_of_upper c hu.1 hu.2
    constructor
    · have hval : c.toLower.val.toBitVec.toNat = c.toNat + 32 := ht
      have hlow : (Char.toLower c).isLower = true := by
        simp only [Char.isLower, ge_iff_le, Bool.and_eq_true, decide_eq_true_eq]
        constructor <;> rw [UInt32.le_def, BitVec.le_def]
        · have hlit : (97 : UInt32).toBitVec.toNat = 97 := rfl
          omega
        · have hlit : (122 : UInt32).toBitVec.toNat = 122 := rfl
          omega
      simp [Char.isAlphanum, Char.isAlpha, hlow]
    · apply toLower_eq_self_of_not_upper
      rw [ht]
      omega
  · have he : Char.toLower c = c := toLower_eq_self_of_not_upper c hu
    rw [he]
    exact ⟨h, he⟩

theorem py_isalnum_ascii (c : Char) (h : c.toNat < 128) :
    SlugEntry.py_isalnum c = c.isAlphanum := by
  have hne : (c == Char.ofNat 0x130) = false := by
    rw [beq_eq_false_iff_ne]
    intro he
    rw [he] at h
    have h304 : (Char.ofNat 0x130).toNat = 304 := by decide
    omega
  simp [SlugEntry.py_isalnum, hne]

theorem py_lower_ascii (c : Char) (h : c.toNat < 128) :
    SlugEntry.py_lower c = [Char.toLower c] := by
  have hne : (c == Char.ofNat 0x130) = false := by
    rw [beq_eq_false_iff_ne]
    intro he
    rw [he] at h
    have h304 : (Char.ofNat 0x130).toNat = 304 := by decide
    omega
  simp [SlugEntry.py_lower, hne]

theorem toLower_ascii (c : Char) (h : c.toNat < 128) :
    (Char.toLower c).toNat < 128 := by
  by_cases hu : c.toNat ≥ 65 ∧ c.toNat ≤ 90
  · have ht := toLower_toNat_of_upper c hu.1 hu.2
    omega
  · rw [toLower_eq_self_of_not_upper c hu]
    exact h

theorem ascii_slug_filter (s : List Char) (h : ∀ c ∈ s, c.toNat < 128) :
    SlugEntry.slug_filter SlugEntry.py_isalnum SlugEntry.py_lower s =
      (s.filter fun c => c.isAlphanum || c == '-').map Char.toLower := by
  induction s with
  | nil => rfl
  | cons x xs ih =>
    have hx : x.toNat < 128 := h x (List.mem_cons_self x xs)
    have hxs : ∀ c ∈ xs, c.toNat < 128 := fun c hc => h c (List.mem_cons_of_mem x hc)
    simp only [SlugEntry.slug_filter, List.filter_cons] at ih ⊢
    rw [py_isalnum_ascii x hx]
    by_cases hkeep : (x.isAlphanum || x == '-') = true
    · rw [if_pos hkeep, if_pos hkeep, List.flatMap_cons, py_lower_ascii x hx,
        List.map_cons, ih hxs]
      rfl
    · rw [if_neg hkeep, if_neg hkeep]
      exact ih hxs

theorem slug_filter_ascii_idem (s : List Char) (h : ∀ c ∈ s, c.toNat < 128) :
    SlugEntry.slug_filter SlugEntry.py_isalnum SlugEntry.py_lower
        (SlugEntry.slug_filter SlugEntry.py_isalnum SlugEntry.py_lower s) =
      SlugEntry.slug_filter SlugEntry.py_isalnum SlugEntry.py_lower s := by
  rw [ascii_slug_filter s h]
  have hin : ∀ c ∈ (s.filter fun c => c.isAlphanum || c == '-').map Char.toLower,
      c.toNat < 128 := by
    intro c hc
    obtain ⟨c0, hc0, hmap⟩ := List.mem_map.mp hc
    rw [← hmap]
    exact toLower_ascii c0 (h c0 (List.mem_filter.mp hc0).1)
  rw [ascii_slug_filter _ hin]
  have hkeepall : ((s.filter fun c => c.isAlphanum || c == '-').map Char.toLower).filter
      (fun c => c.isAlphanum || c == '-') =
      (s.filter fun c => c.isAlphanum || c == '-').map Char.toLower := by
    apply List.filter_eq_self.mpr
    intro c hc
    obtain ⟨c0, hc0, hmap⟩ := List.mem_map.mp hc
    rw [← hmap]
    exact (slug_char_closed c0 (List.mem_filter.mp hc0).2).1
  rw [hkeepall, List.map_map]
  exact List.map_congr_left fun c hc =>
    (slug_char_closed c (List.mem_filter.mp hc).2).2

theorem foldl_append_singleton (l acc : List (String × String)) :
    l.foldl (fun a r => a ++ [r]) acc = acc ++ l := by
  induction l generalizing acc with
  | nil => simp
  | cons x xs ih =>
    rw [List.foldl_cons, ih]
    simp

theorem get_data_eq_liststore (g : EditableGrid.Grid) :
    EditableGrid.get_data g = g.liststore := by
  show g.liststore.foldl (fun a r => a ++ [r]) [] = g.liststore
  rw [foldl_append_singleton]
  rfl

end Widgets

/-- C1: one download task is submitted per `(slug, url)` entry of the
`media_urls` dictionary, and by the time `download_icons` returns every
task has produced exactly one outcome, in whatever order the futures
complete: a successful task yields exactly one `icon-loaded` emission
carrying its slug and the path `service_media.download` returned (and no
log entry), and a failed task yields exactly one logged failure (and no
emission). -/
theorem claim_C1_one_outcome_per_task
    (download : String → String → Except String String)
    (media_urls order : List (String × String))
    (hperm : order.Perm media_urls)
    (hkeys : (media_urls.map Prod.fst).Nodup) :
    (MediaLoader.download_icons download order).emits.Perm
        (MediaLoader.successList download media_urls) ∧
    (MediaLoader.download_icons download order).logs.Perm
        (MediaLoader.failureList download media_urls) ∧
    (MediaLoader.download_icons download order).emits.length +
        (MediaLoader.download_icons download order).logs.length = media_urls.length ∧
    (∀ slug url path, (slug, url) ∈ media_urls →
        download slug url = Except.ok path →
        (MediaLoader.download_icons download order).emits.count (slug, path) = 1 ∧
        ∀ e, (slug, e) ∉ (MediaLoader.download_icons download order).logs) ∧
    (∀ slug url ex, (slug, url) ∈ media_urls →
        download slug url = Except.error ex →
        (MediaLoader.download_icons download order).logs.count (slug, ex) = 1 ∧
        ∀ p, (slug, p) ∉ (MediaLoader.download_icons download order).emits) := by
  have hE := MediaLoader.emits_eq_successList download order
  have hL := MediaLoader.logs_eq_failureList download order
  have hpe : (MediaLoader.successList download order).Perm
      (MediaLoader.successList download media_urls) := hperm.filterMap _
  have hpl : (MediaLoader.failureList download order).Perm
      (MediaLoader.failureList download media_urls) := hperm.filterMap _
  refine ⟨by rw [hE]; exact hpe, by rw [hL]; exact hpl, ?_, ?_, ?_⟩
  · rw [hE, hL, hpe.length_eq, hpl.length_eq]
    exact MediaLoader.successList_length_add_failureList_length download media_urls
  · intro slug url path hmem hok
    constructor
    · rw [hE, MediaLoader.perm_count_pair hpe]
      exact MediaLoader.count_successList download media_urls slug url path hkeys hmem hok
    · intro e hcontra
      rw [hL] at hcontra
      have hmem2 : (slug, e) ∈ MediaLoader.failureList download media_urls :=
        hpl.mem_iff.mp hcontra
      obtain ⟨u2, hmem2l, herr2⟩ :=
        MediaLoader.mem_failureList_elim download media_urls slug e hmem2
      have hu : u2 = url :=
        MediaLoader.nodup_keys_unique media_urls hkeys slug u2 url hmem2l hmem
      rw [hu, hok] at herr2
      exact absurd herr2 (by simp)
  · intro slug url ex hmem herr
    constructor
    · rw [hL, MediaLoader.perm_count_pair hpl]
      exact MediaLoader.count_failureList download media_urls slug url ex hkeys hmem herr
    · intro p hcontra
      rw [hE] at hcontra
      have hmem2 : (slug, p) ∈ MediaLoader.successList download media_urls :=
        hpe.mem_iff.mp hcontra
      obtain ⟨u2, hmem2l, hok2⟩ :=
        MediaLoader.mem_successList_elim download media_urls slug p hmem2
      have hu : u2 = url :=
        MediaLoader.nodup_keys_unique media_urls hkeys slug u2 url hmem2l hmem
      rw [hu, herr] at hok2
      exact absurd hok2 (by simp)

/-- Witness for C1: the theorem applied to a concrete two-entry
dictionary ("a" succeeds, "b" fails) whose futures complete in reverse
order. -/
theorem claim_C1_one_outcome_per_task_witness :
    (([("b", "v"), ("a", "u")] : List (String × String)).Perm
        [("a", "u"), ("b", "v")] ∧
      (([("a", "u"), ("b", "v")] : List (String × String)).map Prod.fst).Nodup) ∧
    ((MediaLoader.download_icons MediaLoader.dlExample [("b", "v"), ("a", "u")]).emits.Perm
        (MediaLoader.successList MediaLoader.dlExample [("a", "u"), ("b", "v")]) ∧
      (MediaLoader.download_icons MediaLoader.dlExample [("b", "v"), ("a", "u")]).logs.Perm
        (MediaLoader.failureList MediaLoader.dlExample [("a", "u"), ("b", "v")]) ∧
      (MediaLoader.download_icons MediaLoader.dlExample [("b", "v"), ("a", "u")]).emits.length +
        (MediaLoader.download_icons MediaLoader.dlExample [("b", "v"), ("a", "u")]).logs.length =
          ([("a", "u"), ("b", "v")] : List (String × String)).length ∧
      (∀ slug url path, (slug, url) ∈ ([("a", "u"), ("b", "v")] : List (String × String)) →
          MediaLoader.dlExample slug url = Except.ok path →
          (MediaLoader.download_icons MediaLoader.dlExample
              [("b", "v"), ("a", "u")]).emits.count (slug, path) = 1 ∧
          ∀ e, (slug, e) ∉ (MediaLoader.download_icons MediaLoader.dlExample
              [("b", "v"), ("a", "u")]).logs) ∧
      (∀ slug url ex, (slug, url) ∈ ([("a", "u"), ("b", "v")] : List (String × String)) →
          MediaLoader.dlExample slug url = Except.error ex →
          (MediaLoader.download_icons MediaLoader.dlExample
              [("b", "v"), ("a", "u")]).logs.count (slug, ex) = 1 ∧
          ∀ p, (slug, p) ∉ (MediaLoader.download_icons MediaLoader.dlExample
              [("b", "v"), ("a", "u")]).emits)) :=
  ⟨⟨by decide, by decide⟩,
    claim_C1_one_outcome_per_task MediaLoader.dlExample [("a", "u"), ("b", "v")]
      [("b", "v"), ("a", "u")] (by decide) (by decide)⟩

/-- C2: a per-item download failure is caught inside the per-item loop
and logged, and the batch continues: every failing entry of the batch
appears in the log, and every entry still produces its own outcome (an
emission on success, a log entry on failure) whatever the other entries
do. -/
theorem claim_C2_failures_logged_batch_continues
    (download : String → String → Except String String)
    (order : List (String × String)) :
    (∀ slug url ex, (slug, url) ∈ order → download slug url = Except.error ex →
        (slug, ex) ∈ (MediaLoader.download_icons download order).logs) ∧
    (∀ slug url path, (slug, url) ∈ order → download slug url = Except.ok path →
        (slug, path) ∈ (MediaLoader.download_icons download order).emits) := by
  constructor
  · intro slug url ex hmem herr
    rw [MediaLoader.logs_eq_failureList]
    exact List.mem_filterMap.mpr ⟨(slug, url), hmem, by simp [herr]⟩
  · intro slug url path hmem hok
    rw [MediaLoader.emits_eq_successList]
    exact List.mem_filterMap.mpr ⟨(slug, url), hmem, by simp [hok]⟩

/-- Witness for C2: in a concrete batch where "b" raises and "a"
succeeds, the failure of "b" is logged and the outcome of "a" is still
emitted. -/
theorem claim_C2_failures_logged_batch_continues_witness :
    (("b", "v") ∈ ([("b", "v"), ("a", "u")] : List (String × String)) ∧
      MediaLoader.dlExample "b" "v" = Except.error "boom" ∧
      ("b", "boom") ∈
        (MediaLoader.download_icons MediaLoader.dlExample [("b", "v"), ("a", "u")]).logs) ∧
    (("a", "u") ∈ ([("b", "v"), ("a", "u")] : List (String × String)) ∧
      MediaLoader.dlExample "a" "u" = Except.ok "pa" ∧
      ("a", "pa") ∈
        (MediaLoader.download_icons MediaLoader.dlExample [("b", "v"), ("a", "u")]).emits) :=
  ⟨⟨by decide, rfl,
      (claim_C2_failures_logged_batch_continues MediaLoader.dlExample
        [("b", "v"), ("a", "u")]).1 "b" "v" "boom" (by decide) rfl⟩,
    ⟨by decide, rfl,
      (claim_C2_failures_logged_batch_continues MediaLoader.dlExample
        [("b", "v"), ("a", "u")]).2 "a" "u" "pa" (by decide) rfl⟩⟩

/-- C3: the tasks of `download_icons` run on a pool of exactly
`num_workers = 8` workers: the constant equals 8, and in the bounded
executor model every state reachable with that bound has at most 8 tasks
in flight simultaneously. -/
theorem claim_C3_worker_pool_bounded :
    MediaLoader.num_workers = 8 ∧
    ∀ (tasks : List Nat) (s : MediaLoader.PoolState),
      MediaLoader.poolReachable MediaLoader.num_workers tasks s →
      s.running.length ≤ 8 :=
  ⟨rfl, fun tasks s h =>
    MediaLoader.poolReachable_running_le MediaLoader.num_workers tasks s h⟩

/-- Witness for C3: a concrete reachable executor state (one task
started out of two submitted) respects the bound. -/
theorem claim_C3_worker_pool_bounded_witness :
    MediaLoader.poolReachable MediaLoader.num_workers [0, 1]
      ⟨[1], [0], []⟩ ∧
    (⟨[1], [0], []⟩ : MediaLoader.PoolState).running.length ≤ 8 := by
  have hreach : MediaLoader.poolReachable MediaLoader.num_workers [0, 1] ⟨[1], [0], []⟩ :=
    Relation.ReflTransGen.single
      (MediaLoader.PoolStep.submit 0 [1] [] [] (by decide))
  exact ⟨hreach, claim_C3_worker_pool_bounded.2 [0, 1] ⟨[1], [0], []⟩ hreach⟩

/-- C4: on a text change, `on_entry_changed` first clears every
previously shown warning label (every child after index 0) and then adds
exactly one warning label per risky condition holding for the
tilde-expanded path — NTFS drive when the NTFS flag is set, non-empty
existing target when the NON_EMPTY flag is set, and non-writable nearest
existing parent unconditionally; when the new text is empty no warning
is shown. -/
theorem claim_C4_entry_changed_warnings (fs : Widgets.FS)
    (s : Widgets.FileChooserEntryState) :
    (s.text = "" →
      Widgets.get_children (Widgets.on_entry_changed fs s).container =
        (Widgets.get_children s.container).take 1) ∧
    (s.text ≠ "" →
      Widgets.get_children (Widgets.on_entry_changed fs s).container =
        (Widgets.get_children s.container).take 1 ++
          Widgets.expected_warnings fs s (fs.expanduser s.text)) := by
  constructor
  · intro h
    simp only [Widgets.on_entry_changed, Widgets.get_text, h, if_pos]
    exact Widgets.clear_warnings_children s.container
  · intro h
    simp only [Widgets.on_entry_changed, Widgets.get_text,
      Widgets.update_completion_container, Widgets.update_completion_warn_if_ntfs,
      Widgets.update_completion_warn_if_non_empty, if_neg h]
    cases hpar : fs.get_existing_parent (fs.expanduser s.text) with
    | some parent =>
      by_cases hw : fs.access_writable parent = true <;>
      by_cases h1 : (s.warn_if_ntfs &&
          (fs.get_fs_type_for_path (fs.expanduser s.text) == some "ntfs")) = true <;>
      by_cases h2 : (s.warn_if_non_empty && fs.path_exists (fs.expanduser s.text) &&
          ! (fs.listdir (fs.expanduser s.text)).isEmpty) = true <;>
      simp [Widgets.expected_warnings, Widgets.pack_end, Widgets.get_children,
        hpar, hw, h1, h2]
    | none =>
      by_cases h1 : (s.warn_if_ntfs &&
          (fs.get_fs_type_for_path (fs.expanduser s.text) == some "ntfs")) = true <;>
      by_cases h2 : (s.warn_if_non_empty && fs.path_exists (fs.expanduser s.text) &&
          ! (fs.listdir (fs.expanduser s.text)).isEmpty) = true <;>
      simp [Widgets.expected_warnings, Widgets.pack_end, Widgets.get_children,
        hpar, h1, h2]

/-- Witness for C4: concrete state where the text is non-empty, a stale
warning label is cleared, and all three risky conditions hold, so
exactly the three warning labels are shown after the entry row. -/
theorem claim_C4_entry_changed_warnings_witness :
    Widgets.stWarn.text ≠ "" ∧
    Widgets.get_children (Widgets.on_entry_changed Widgets.fsWarn Widgets.stWarn).container =
      [Widgets.Widget.entryRow, Widgets.Widget.nonWritableWarning,
        Widgets.Widget.nonEmptyWarning, Widgets.Widget.ntfsWarning] := by
  refine ⟨by decide, ?_⟩
  rw [(claim_C4_entry_changed_warnings Widgets.fsWarn Widgets.stWarn).2 (by decide)]
  rfl

/-- C9: the deprecated accessor `get_filename` returns exactly the same
string as `get_text`, apart from the deprecation log message. -/
theorem claim_C9_get_filename_returns_get_text (s : Widgets.FileChooserEntryState) :
    (Widgets.get_filename s).1 = Widgets.get_text s := rfl

/-- C10: `clear_warnings` removes every child of the container except
the child at index 0 (the row holding the text entry and the Browse
button) and leaves that first child unchanged. -/
theorem claim_C10_clear_warnings_keeps_entry (b : Widgets.BoxState) :
    Widgets.get_children (Widgets.clear_warnings b) =
      (Widgets.get_children b).take 1 :=
  Widgets.clear_warnings_children b

/-- C8 counterexample: on a directory of 17 visible files the refilled
completion store holds 16 entries — more than `max_completion_items`
(15), because the loop breaks only after `index` exceeds the maximum, so
the claimed cap of at most 15 entries is violated. -/
theorem claim_C8_completion_cap_counterexample :
    Widgets.max_completion_items <
      (Widgets.update_completion Widgets.fsBig Widgets.stBig "/d").path_completion.length := by
  decide

/-- C8 (amended): `update_completion` clears the completion store and
refills it with the full paths of the directory's children, in sorted
order, excluding hidden names and (when the typed path does not exist)
names missing the final-component prefix — but capped at
`max_completion_items + 1` (16) entries, one more than the claimed 15,
since the loop appends before testing `index > max_completion_items`. -/
theorem claim_C8_completion_capped (fs : Widgets.FS)
    (s : Widgets.FileChooserEntryState) (path : String) :
    (Widgets.update_completion fs s path).path_completion =
      (Widgets.expected_completions fs path).take (Widgets.max_completion_items + 1) ∧
    (Widgets.update_completion fs s path).path_completion.length ≤
      Widgets.max_completion_items + 1 := by
  have hmain : (Widgets.update_completion fs s path).path_completion =
      (Widgets.expected_completions fs path).take (Widgets.max_completion_items + 1) := by
    simp only [Widgets.update_completion, Widgets.expected_completions]
    split <;> split <;>
      simp [Widgets.completion_loop_eq_take _ _ _ 0 (by omega)]
  refine ⟨hmain, ?_⟩
  rw [hmain, List.length_take]
  omega

/-- C5 counterexample: typing "a1" at position 0 inserts one numeric
character, so the claim requires the returned position 0 + 1; the code
returns position plus the unfiltered length, 0 + 2. -/
theorem claim_C5_number_entry_counterexample :
    (Widgets.NumberEntry.do_insert_text [] ['a', '1'] 2 0).2 ≠
      0 + (Widgets.NumberEntry.numeric_filter ['a', '1']).length := by
  decide

/-- C5 (amended): `NumberEntry.do_insert_text` inserts into the buffer
exactly the numeric characters of the typed string, in order, but when
at least one numeric character survives it returns the original position
plus the length of the whole typed string (the unfiltered `length`
argument), not plus the number of characters actually inserted; when no
numeric character survives, the buffer is unchanged and the original
position is returned. -/
theorem claim_C5_number_entry_inserts_digits (buffer new_text : List Char)
    (length position : Nat) (hlen : length = new_text.length) :
    (Widgets.NumberEntry.numeric_filter new_text ≠ [] →
      Widgets.NumberEntry.do_insert_text buffer new_text length position =
        (buffer.take position ++ Widgets.NumberEntry.numeric_filter new_text ++
          buffer.drop position, position + length)) ∧
    (Widgets.NumberEntry.numeric_filter new_text = [] →
      Widgets.NumberEntry.do_insert_text buffer new_text length position =
        (buffer, position)) := by
  constructor
  · intro hne
    have hle : (Widgets.NumberEntry.numeric_filter new_text).length ≤ length := by
      rw [hlen]
      exact List.length_filter_le _ _
    simp only [Widgets.NumberEntry.do_insert_text, if_pos hne, Widgets.insert_text,
      List.take_of_length_le hle]
  · intro he
    simp [Widgets.NumberEntry.do_insert_text, he]

/-- Witness for C5 (amended): typing "a1" at position 1 of buffer "x"
inserts the single digit and returns 1 + 2. -/
theorem claim_C5_number_entry_inserts_digits_witness :
    (2 = (['a', '1'] : List Char).length ∧
      Widgets.NumberEntry.numeric_filter ['a', '1'] ≠ []) ∧
    Widgets.NumberEntry.do_insert_text ['x'] ['a', '1'] 2 1 = (['x', '1'], 3) := by
  refine ⟨⟨by decide, by decide⟩, ?_⟩
  rw [(claim_C5_number_entry_inserts_digits ['x'] ['a', '1'] 2 1 (by decide)).1 (by decide)]
  rfl

/-- C6 counterexample: the slug filter is not idempotent on the
program's Unicode semantics: LATIN CAPITAL LETTER I WITH DOT ABOVE
(U+0130) is alphanumeric and lowers to "i" followed by COMBINING DOT
ABOVE (U+0307); the combining mark is not alphanumeric, so a second
application of the filter removes it. -/
theorem claim_C6_slug_filter_counterexample :
    Widgets.SlugEntry.slug_filter Widgets.SlugEntry.py_isalnum Widgets.SlugEntry.py_lower
        (Widgets.SlugEntry.slug_filter Widgets.SlugEntry.py_isalnum
          Widgets.SlugEntry.py_lower [Char.ofNat 0x130]) ≠
      Widgets.SlugEntry.slug_filter Widgets.SlugEntry.py_isalnum
        Widgets.SlugEntry.py_lower [Char.ofNat 0x130] := by
  decide

/-- C6 (amended): for every host `isalnum` and per-character `lower`
semantics, `SlugEntry.do_insert_text` inserts into the buffer exactly
the lowered subsequence of characters that are alphanumeric or dashes
and returns the original position plus the length of that inserted
string; the filter is idempotent on ASCII text, but not on arbitrary
Unicode text (the counterexample at U+0130). -/
theorem claim_C6_slug_entry_filter (isalnum : Char → Bool) (lower : Char → List Char)
    (buffer new_text : List Char) (length position : Nat) :
    (Widgets.SlugEntry.do_insert_text isalnum lower buffer new_text length position =
      (buffer.take position ++ Widgets.SlugEntry.slug_filter isalnum lower new_text ++
        buffer.drop position,
        position + (Widgets.SlugEntry.slug_filter isalnum lower new_text).length)) ∧
    (∀ s : List Char, (∀ c ∈ s, c.toNat < 128) →
      Widgets.SlugEntry.slug_filter Widgets.SlugEntry.py_isalnum Widgets.SlugEntry.py_lower
          (Widgets.SlugEntry.slug_filter Widgets.SlugEntry.py_isalnum
            Widgets.SlugEntry.py_lower s) =
        Widgets.SlugEntry.slug_filter Widgets.SlugEntry.py_isalnum
          Widgets.SlugEntry.py_lower s) := by
  refine ⟨?_, fun s hs => Widgets.slug_filter_ascii_idem s hs⟩
  simp only [Widgets.SlugEntry.do_insert_text, Widgets.insert_text, List.take_length]

/-- Witness for C6 (amended): the theorem's idempotence conjunct applied
at a concrete ASCII string. -/
theorem claim_C6_slug_entry_filter_witness :
    (∀ c ∈ (['A', '1', '-'] : List Char), c.toNat < 128) ∧
    Widgets.SlugEntry.slug_filter Widgets.SlugEntry.py_isalnum Widgets.SlugEntry.py_lower
        (Widgets.SlugEntry.slug_filter Widgets.SlugEntry.py_isalnum
          Widgets.SlugEntry.py_lower ['A', '1', '-']) =
      Widgets.SlugEntry.slug_filter Widgets.SlugEntry.py_isalnum
        Widgets.SlugEntry.py_lower ['A', '1', '-'] :=
  ⟨by decide,
    (claim_C6_slug_entry_filter Widgets.SlugEntry.py_isalnum Widgets.SlugEntry.py_lower
      [] [] 0 0).2 ['A', '1', '-'] (by decide)⟩

/-- C7: each mutating grid operation emits `changed` exactly once and
performs exactly its edit on the backing list store: `on_add` appends
one row of two empty strings at the end, `on_delete` removes exactly the
selected row, `on_text_edited` replaces just the addressed cell with the
whitespace-stripped text, and `get_data` returns one entry per remaining
row in store order. -/
theorem claim_C7_grid_operations (g : Widgets.EditableGrid.Grid) (text : String)
    (path field i : Nat) :
    ((Widgets.EditableGrid.on_add g).1.liststore = g.liststore ++ [("", "")] ∧
      (Widgets.EditableGrid.on_add g).2 = ["changed"]) ∧
    (g.cursor = some i →
      ∃ g2, Widgets.EditableGrid.on_delete g = some (g2, ["changed"]) ∧
        g2.liststore = g.liststore.eraseIdx i) ∧
    (∀ row, g.liststore.get? path = some row → field < 2 →
      ∃ g3, Widgets.EditableGrid.on_text_edited g path text field =
          some (g3, ["changed"]) ∧
        g3.liststore.get? path =
          some (Widgets.EditableGrid.set_field row field text.trim) ∧
        (∀ j, j ≠ path → g3.liststore.get? j = g.liststore.get? j) ∧
        g3.liststore.length = g.liststore.length) ∧
    Widgets.EditableGrid.get_data g = g.liststore := by
  refine ⟨⟨rfl, rfl⟩, ?_, ?_, Widgets.get_data_eq_liststore g⟩
  · intro hc
    exact ⟨⟨g.liststore.eraseIdx i, g.cursor⟩,
      by simp [Widgets.EditableGrid.on_delete, hc], rfl⟩
  · intro row hrow hfield
    refine ⟨⟨g.liststore.set path (Widgets.EditableGrid.set_field row field text.trim),
      g.cursor⟩, ?_, ?_, ?_, ?_⟩
    · have hrow2 : g.liststore[path]? = some row := by
        rw [← List.get?_eq_getElem?]
        exact hrow
      simp [Widgets.EditableGrid.on_text_edited, hrow2, hfield]
    · rw [List.get?_set_eq, hrow]
      rfl
    · intro j hj
      exact List.get?_set_ne _ _ (fun hpj => hj hpj.symm)
    · exact List.length_set g.liststore path _

/-- Witness for C7: the theorem applied to a concrete two-row grid with
the first row selected, deleting row 0 and editing cell (1, 1). -/
theorem claim_C7_grid_operations_witness :
    (Widgets.EditableGrid.gridExample.cursor = some 0 ∧
      Widgets.EditableGrid.gridExample.liststore.get? 1 = some ("k2", "v2") ∧
      (1 : Nat) < 2) ∧
    (∃ g2, Widgets.EditableGrid.on_delete Widgets.EditableGrid.gridExample =
        some (g2, ["changed"]) ∧
      g2.liststore = Widgets.EditableGrid.gridExample.liststore.eraseIdx 0) ∧
    (∃ g3, Widgets.EditableGrid.on_text_edited Widgets.EditableGrid.gridExample
        1 " x " 1 = some (g3, ["changed"]) ∧
      g3.liststore.get? 1 =
        some (Widgets.EditableGrid.set_field ("k2", "v2") 1 (String.trim " x ")) ∧
      (∀ j, j ≠ 1 → g3.liststore.get? j =
        Widgets.EditableGrid.gridExample.liststore.get? j) ∧
      g3.liststore.length = Widgets.EditableGrid.gridExample.liststore.length) :=
  ⟨⟨rfl, rfl, by decide⟩,
    (claim_C7_grid_operations Widgets.EditableGrid.gridExample " x " 1 1 0).2.1 rfl,
    (claim_C7_grid_operations Widgets.EditableGrid.gridExample " x " 1 1 0).2.2.1
      ("k2", "v2") rfl (by decide)⟩

end Lutris
